import Mathlib

/-!
Verification of the memoir-cloud photo-listing core
(`backend/app/services/blob_service.py`, `backend/app/routers/photos.py`,
`uploader/memoir_uploader/uploader.py`).

The embedding is shallow and parametric in the timestamp domain `τ`
(a linear order): the source stores `takenAt` as an ISO-8601 UTC string
and compares parsed datetimes; both the string sort key and the parsed
comparison induce the same linear order on well-formed timestamps, which
is all the pagination algorithm ever uses.  Presentation-only fields of
the wire schema (URLs, width/height, aspect ratio, EXIF) play no role in
any claim and are omitted from the record.
-/

namespace MemoirCloud

deriving instance DecidableEq for Except

/-- One photo record of a partition catalog (`index.json` entry).
Only the fields the query engine inspects are kept: `id` and the sort
key `takenAt`. -/
structure Photo (τ : Type) where
  id : String
  takenAt : τ
deriving DecidableEq, Repr

/-- The JSON value stored under a document's `"photos"` key.
`wellTyped` is an array of photo records; `illTyped` is a present but
non-list value (such as `null` or a string).  The distinction matters:
the source's guard `if not index or "photos" not in index` lets an
ill-typed value through, and `photos.sort(...)` then raises an uncaught
`AttributeError`. -/
inductive PhotosValue (τ : Type) where
  | wellTyped (ps : List (Photo τ))
  | illTyped
deriving DecidableEq, Repr

/-- The parsed `index.json` document of one container.
`photosField = none` models a document without a `"photos"` key
(including the empty document, which the source skips via
`if not index or "photos" not in index`); `some v` models a present
`"photos"` key whose value is `v`, well-typed or not. -/
structure IndexDoc (τ : Type) where
  photosField : Option (PhotosValue τ)
deriving DecidableEq, Repr

/-- One storage container: its name and its `index.json`, `none` when the
container has no index document or fetching/parsing it failed (the source
returns `None` in both cases, `BlobService._get_container_index`). -/
structure Container (τ : Type) where
  name : String
  index : Option (IndexDoc τ)
deriving DecidableEq, Repr

/-- The backing store: the containers `list_containers()` enumerates, in
enumeration order. -/
abbrev Store (τ : Type) := List (Container τ)

/-- Output section for one quarter (`QuarterSection` of the wire schema).
The source renders the quarter as the string `"Qn"`; we keep the number
`n` itself (the rendering `n ↦ "Q" ++ toString n` is injective, so every
ordering statement transfers). -/
structure QuarterSection (τ : Type) where
  quarter : Nat
  label : String
  photos : List (Photo τ)
deriving DecidableEq, Repr

/-- The page returned by `get_photos_by_year` (`PhotosResponse`). -/
structure PhotosResponse (τ : Type) where
  year : Nat
  sections : List (QuarterSection τ)
  nextCursor : Option τ
  hasMore : Bool
deriving DecidableEq, Repr

/-- A raw cursor argument as received by the service:
`none` = absent (or empty, which Python's `if cursor:` treats as absent);
`some none` = present but not parseable as a timestamp;
`some (some t)` = present and parsing to timestamp `t`. -/
abbrev RawCursor (τ : Type) := Option (Option τ)

/-- `BlobService._parse_container_name`:
`re.match(r"^(\d{4})-q([1-4])$", name, re.IGNORECASE)`.

Python's `$` matches at the end of the string and also immediately
before a single newline that ends the string, so an eight-character
input whose last character is `'\n'` is ALSO accepted — the second
branch models that.  Python's `\d` and `int()` additionally accept
non-ASCII Unicode decimal digits; that fragment is not modelled here
(the round-trip theorems quantify over ASCII strings only): container
names reachable from the backing store are ASCII, since Azure restricts
container names to lowercase ASCII letters, digits and hyphens, and the
uploader formats names from `f"{date.year}-q{quarter}"`. -/
def parse_container_name (s : String) : Option (Nat × Nat) :=
  match s.data with
  | [d1, d2, d3, d4, dash, qc, qd] =>
    if d1.isDigit && d2.isDigit && d3.isDigit && d4.isDigit &&
        dash = '-' && (qc = 'q' || qc = 'Q') && '1' ≤ qd && qd ≤ '4' then
      some ((d1.toNat - 48) * 1000 + (d2.toNat - 48) * 100 +
              (d3.toNat - 48) * 10 + (d4.toNat - 48),
            qd.toNat - 48)
    else
      none
  | [d1, d2, d3, d4, dash, qc, qd, nl] =>
    if d1.isDigit && d2.isDigit && d3.isDigit && d4.isDigit &&
        dash = '-' && (qc = 'q' || qc = 'Q') && '1' ≤ qd && qd ≤ '4' &&
        nl = '\n' then
      some ((d1.toNat - 48) * 1000 + (d2.toNat - 48) * 100 +
              (d3.toNat - 48) * 10 + (d4.toNat - 48),
            qd.toNat - 48)
    else
      none
  | _ => none

/-- `PhotoUploader._get_container_name` (uploader write path):
`f"{date.year}-q{quarter}"`. -/
def get_container_name (year quarter : Nat) : String :=
  toString year ++ "-q" ++ toString quarter

/-- `PhotoUploader._get_quarter`: `(month - 1) // 3 + 1`. -/
def get_quarter (month : Nat) : Nat :=
  (month - 1) / 3 + 1

/-- `BlobService._get_quarter_label`. -/
def get_quarter_label (q : Nat) : String :=
  match q with
  | 1 => "January - March"
  | 2 => "April - June"
  | 3 => "July - September"
  | 4 => "October - December"
  | _ => "Q" ++ toString q

section Engine

variable {τ : Type} [LinearOrder τ]

/-- Ordering used by `photos.sort(key=lambda p: p.get("takenAt", ""), reverse=True)`:
`a` may precede `b` iff `a`'s key is at least `b`'s.  Python's sort is
stable; `List.insertionSort` with this relation is the stable descending
sort. -/
def photoGE (a b : Photo τ) : Prop := b.takenAt ≤ a.takenAt

instance : DecidableRel (photoGE (τ := τ)) :=
  fun a b => inferInstanceAs (Decidable (b.takenAt ≤ a.takenAt))

instance : IsTotal (Photo τ) photoGE :=
  ⟨fun a b => (le_total b.takenAt a.takenAt).imp id id⟩

instance : IsTrans (Photo τ) photoGE :=
  ⟨fun _ _ _ h1 h2 => le_trans h2 h1⟩

/-- Stable descending sort of a photo list
(`photos.sort(key=..., reverse=True)`). -/
def sortPhotosDesc (l : List (Photo τ)) : List (Photo τ) :=
  l.insertionSort photoGE

/-- The cursor filter (lines 257-261): with a parsed cursor timestamp,
keep exactly the photos with `takenAt` strictly below it; with no
cursor timestamp, keep everything. -/
def cursorFilter (cursorDt : Option τ) (l : List (Photo τ)) : List (Photo τ) :=
  match cursorDt with
  | some c => l.filter (fun p => p.takenAt < c)
  | none => l

/-- The candidate list of one partition inside `get_photos_by_year`:
the catalog's photos, stably sorted by `takenAt` descending, then
cursor-filtered. -/
def candidates (cursorDt : Option τ) (raw : List (Photo τ)) : List (Photo τ) :=
  cursorFilter cursorDt (sortPhotosDesc raw)

/-- The `"photos"` value a container contributes: `none` when the
container is skipped (`if not index or "photos" not in index: continue`),
otherwise the key's value — a photo list, or an ill-typed value on which
the subsequent `photos.sort(...)` raises. -/
def rawPhotos (c : Container τ) : Option (PhotosValue τ) :=
  match c.index with
  | none => none
  | some d => d.photosField

/-- The exception `photos.sort(...)` (line 254) raises when the
`"photos"` value is not a list (e.g. `None.sort` → `AttributeError`);
nothing in `get_photos_by_year` or the router catches it, so the whole
request fails. -/
def sortCrash : String := "AttributeError: photos has no attribute sort"

/-- The inner photo loop (lines 268-294): append photos while the running
total is below `limit`; capacity `k = limit - total`.  When capacity runs
out with a photo remaining, that first excluded photo's `takenAt` becomes
the next cursor and the loop breaks. -/
def takeWithCursor : Nat → List (Photo τ) → List (Photo τ) × Option τ
  | _, [] => ([], none)
  | 0, p :: _ => ([], some p.takenAt)
  | Nat.succ k, p :: ps =>
    let r := takeWithCursor k ps
    (p :: r.1, r.2)

/-- The container loop of `get_photos_by_year` (lines 247-306), over the
year's containers already sorted by quarter descending, threading the
running photo total.  Returns the emitted sections and the next cursor,
or the uncaught exception raised by `photos.sort(...)` when a reached
container's `"photos"` value is present but not a list. -/
def processContainers (cursorDt : Option τ) (limit : Nat) (year : Nat) :
    List (Container τ × Nat) → Nat →
      Except String (List (QuarterSection τ) × Option τ)
  | [], _ => .ok ([], none)
  | (c, q) :: rest, total =>
    match rawPhotos c with
    | none => processContainers cursorDt limit year rest total
    | some PhotosValue.illTyped => .error sortCrash
    | some (PhotosValue.wellTyped raw) =>
      let photos := candidates cursorDt raw
      if photos.isEmpty then processContainers cursorDt limit year rest total
      else
        let tp := takeWithCursor (limit - total) photos
        let secs : List (QuarterSection τ) :=
          if tp.1.isEmpty then []
          else [⟨q, get_quarter_label q ++ " " ++ toString year, tp.1⟩]
        if limit ≤ total + tp.1.length then .ok (secs, tp.2)
        else
          match processContainers cursorDt limit year rest (total + tp.1.length) with
          | .error e => .error e
          | .ok r => .ok (secs ++ r.1, r.2)

/-- The year's containers with their parsed quarters, in store
enumeration order (lines 217-227). -/
def containersForYear (year : Nat) (store : Store τ) : List (Container τ × Nat) :=
  store.filterMap fun c =>
    match parse_container_name c.name with
    | some (y, q) => if y = year then some (c, q) else none
    | none => none

/-- Quarter-descending relation for `containers.sort(key=lambda x: x[1], reverse=True)`
(stable). -/
def quarterGE (a b : Container τ × Nat) : Prop := b.2 ≤ a.2

instance : DecidableRel (quarterGE (τ := τ)) :=
  fun a b => inferInstanceAs (Decidable (b.2 ≤ a.2))

instance : IsTotal (Container τ × Nat) quarterGE :=
  ⟨fun a b => (le_total b.2 a.2).imp id id⟩

instance : IsTrans (Container τ × Nat) quarterGE :=
  ⟨fun _ _ _ h1 h2 => le_trans h2 h1⟩

/-- Cursor parsing step (lines 236-241): an absent cursor (or the empty
string, falsy in Python) and a cursor that fails `datetime.fromisoformat`
both yield no cursor timestamp. -/
def parsedCursor : RawCursor τ → Option τ
  | none => none
  | some p => p

/-- `BlobService.get_photos_by_year` (lines 202-313), with the backing
store (or the demo dictionary) abstracted as `store`.  Returns
`.ok none` when the year has no containers, and propagates the uncaught
sort exception of an ill-typed catalog. -/
def get_photos_by_year (year : Nat) (cursor : RawCursor τ) (limit : Nat)
    (store : Store τ) : Except String (Option (PhotosResponse τ)) :=
  let containers := containersForYear year store
  if containers.isEmpty then .ok none
  else
    let sorted := containers.insertionSort quarterGE
    (processContainers (parsedCursor cursor) limit year sorted 0).map
      fun r => some ⟨year, r.1, r.2, r.2.isSome⟩

/-- All photos stored in the year's partitions (every well-typed catalog
entry of every container whose name parses to the year). -/
def allYearPhotos (year : Nat) (store : Store τ) : List (Photo τ) :=
  (containersForYear year store).flatMap fun cq =>
    match rawPhotos cq.1 with
    | some (PhotosValue.wellTyped ps) => ps
    | _ => []

/-- The candidate photos a single container contributes: its cursored,
sorted catalog when well-typed, nothing when the container is skipped
(the engine errors rather than serves on an ill-typed one). -/
def containerCandidates (cursorDt : Option τ) (c : Container τ) : List (Photo τ) :=
  match rawPhotos c with
  | some (PhotosValue.wellTyped raw) => candidates cursorDt raw
  | _ => []

/-- The candidate lists of a container sequence, concatenated in order:
what a full traversal with no limit would serve. -/
def allCandidates (cursorDt : Option τ) (l : List (Container τ × Nat)) : List (Photo τ) :=
  l.flatMap fun cq => containerCandidates cursorDt cq.1

/-- The photos of a successful page (empty for an absent year or a
failed request). -/
def pagePhotos : Except String (Option (PhotosResponse τ)) → List (Photo τ)
  | .ok (some r) => r.sections.flatMap QuarterSection.photos
  | _ => []

/-- The pagination protocol of the spec: call `listPage` with no cursor,
then repeatedly feed each page's `nextCursor` (an always-parseable
timestamp) while `hasMore` is true, concatenating the photos of all
pages.  `fuel` bounds the number of round trips. -/
def chainPages (year limit : Nat) (store : Store τ) :
    Nat → RawCursor τ → List (Photo τ)
  | 0, _ => []
  | Nat.succ fuel, cursor =>
    match get_photos_by_year year cursor limit store with
    | .error _ => []
    | .ok none => []
    | .ok (some page) =>
      let photos := page.sections.flatMap QuarterSection.photos
      if page.hasMore then
        match page.nextCursor with
        | some t => photos ++ chainPages year limit store fuel (some (some t))
        | none => photos
      else photos

/-- Router result for `GET /api/photos/{year}` (`routers/photos.py`):
`notFound status detail` models the raised `HTTPException`;
`serverError` models an exception the handler does not catch, which the
framework turns into a 500 response. -/
inductive RouteResult (τ : Type) where
  | ok (page : PhotosResponse τ)
  | notFound (status : Nat) (detail : String)
  | serverError (e : String)
deriving DecidableEq

/-- `get_photos` route handler (lines 31-46 of `routers/photos.py`):
maps an absent service result to a 404 and catches nothing else. -/
def get_photos_route (year : Nat) (cursor : RawCursor τ) (limit : Nat)
    (store : Store τ) : RouteResult τ :=
  match get_photos_by_year year cursor limit store with
  | .error e => .serverError e
  | .ok none => .notFound 404 ("No photos found for year " ++ toString year)
  | .ok (some r) => .ok r

/-!
## Stateful model of the non-demo service

The shared `cache_service` (an in-memory TTL cache) plus the Azure
backing store, for the frame-effect claims.  The cache is modelled as an
association list (all operations of interest happen inside one TTL
window, so expiry never fires); `enumCalls` counts
`self.client.list_containers()` enumerations of the backing store.
-/

/-- A deserialized cached value: the year list (stored by
`get_available_years` under key `"available_years"`) or a catalog
document (stored by `_get_container_index` under `"index:<container>"`). -/
inductive CacheVal (τ : Type) where
  | years (ys : List Nat)
  | idx (d : IndexDoc τ)
deriving DecidableEq, Repr

/-- Observable service state: cache contents and the number of
container enumerations performed against the backing store. -/
structure SState (τ : Type) where
  cache : List (String × CacheVal τ)
  enumCalls : Nat
deriving DecidableEq, Repr

/-- Association-list read (`cache_service.get`). -/
def cacheGet (k : String) : List (String × CacheVal τ) → Option (CacheVal τ)
  | [] => none
  | e :: rest => if e.1 = k then some e.2 else cacheGet k rest

/-- Association-list write (`cache_service.set`): replace or append. -/
def cacheSetList (k : String) (v : CacheVal τ) :
    List (String × CacheVal τ) → List (String × CacheVal τ)
  | [] => [(k, v)]
  | e :: rest => if e.1 = k then (k, v) :: rest else e :: cacheSetList k v rest

/-- `cache_service.set` on the service state. -/
def cacheSet (k : String) (v : CacheVal τ) (st : SState τ) : SState τ :=
  { st with cache := cacheSetList k v st.cache }

/-- Reading `index.json` of a named container from the backing store. -/
def fetchIndex (store : Store τ) (name : String) : Option (IndexDoc τ) :=
  match store.find? (fun c => c.name = name) with
  | none => none
  | some c => c.index

/-- `BlobService._get_container_index` (lines 177-200, non-demo path):
return the cached document under `"index:<name>"` when present,
otherwise fetch from the store, cache it on success, and return `none`
on a missing or unreadable document without caching.  (The code's
untyped cache can only hold catalog documents under `"index:"` keys, so
the hit branch only ever sees `CacheVal.idx`.) -/
def get_container_indexS (store : Store τ) (name : String) (st : SState τ) :
    Option (IndexDoc τ) × SState τ :=
  match cacheGet ("index:" ++ name) st.cache with
  | some (CacheVal.idx d) => (some d, st)
  | _ =>
    match fetchIndex store name with
    | none => (none, st)
    | some d => (some d, cacheSet ("index:" ++ name) (CacheVal.idx d) st)

/-- The in-place `photos.sort(...)` as seen by a document holder: a
well-typed photo list is stably sorted; an ill-typed value is untouched
(the sort raises before mutating anything). -/
def sortPhotosValue : PhotosValue τ → PhotosValue τ
  | PhotosValue.wellTyped ps => PhotosValue.wellTyped (sortPhotosDesc ps)
  | PhotosValue.illTyped => PhotosValue.illTyped

/-- The container loop of `get_photos_by_year` threading the service
state.  `photos.sort(...)` (line 254) sorts the catalog's photo list in
place; that list is the very object held by the cached document, so the
cache entry becomes the sorted catalog.  On an ill-typed `"photos"`
value the same line raises: the error propagates with the state reached
so far (a cache-miss fetch has already cached the raw document). -/
def processContainersS (store : Store τ) (cursorDt : Option τ) (limit year : Nat) :
    List (Container τ × Nat) → Nat → SState τ →
      Except String (List (QuarterSection τ) × Option τ) × SState τ
  | [], _, st => (.ok ([], none), st)
  | (c, q) :: rest, total, st =>
    let fetched := get_container_indexS store c.name st
    match fetched.1 with
    | none => processContainersS store cursorDt limit year rest total fetched.2
    | some d =>
      match d.photosField with
      | none => processContainersS store cursorDt limit year rest total fetched.2
      | some PhotosValue.illTyped => (.error sortCrash, fetched.2)
      | some (PhotosValue.wellTyped raw) =>
        let sorted := sortPhotosDesc raw
        let st2 := cacheSet ("index:" ++ c.name)
          (CacheVal.idx ⟨some (PhotosValue.wellTyped sorted)⟩) fetched.2
        let photos := cursorFilter cursorDt sorted
        if photos.isEmpty then processContainersS store cursorDt limit year rest total st2
        else
          let tp := takeWithCursor (limit - total) photos
          let secs : List (QuarterSection τ) :=
            if tp.1.isEmpty then []
            else [⟨q, get_quarter_label q ++ " " ++ toString year, tp.1⟩]
          if limit ≤ total + tp.1.length then (.ok (secs, tp.2), st2)
          else
            let r := processContainersS store cursorDt limit year rest (total + tp.1.length) st2
            (match r.1 with
             | .error e => .error e
             | .ok rr => .ok (secs ++ rr.1, rr.2), r.2)

/-- `BlobService.get_photos_by_year` with the cache and enumeration
effects made explicit.  Every call starts with a fresh
`list_containers()` enumeration of the backing store. -/
def get_photos_by_yearS (year : Nat) (cursor : RawCursor τ) (limit : Nat)
    (store : Store τ) (st : SState τ) :
    Except String (Option (PhotosResponse τ)) × SState τ :=
  let st1 : SState τ := { st with enumCalls := st.enumCalls + 1 }
  let containers := containersForYear year store
  if containers.isEmpty then (.ok none, st1)
  else
    let sorted := containers.insertionSort quarterGE
    let r := processContainersS store (parsedCursor cursor) limit year sorted 0 st1
    (match r.1 with
     | .error e => .error e
     | .ok rr => .ok (some ⟨year, rr.1, rr.2, rr.2.isSome⟩), r.2)

/-- The container scan of `get_photo_by_id` (lines 344-371): skip
non-partition names, fetch each catalog through the cache, return the
first photo whose id matches.  Iterating an ill-typed `"photos"` value
(`for photo in index["photos"]`) raises an uncaught `TypeError`. -/
def findPhotoInDocs (store : Store τ) (pid : String) :
    List (Container τ) → SState τ → Except String (Option (Photo τ)) × SState τ
  | [], st => (.ok none, st)
  | c :: rest, st =>
    match parse_container_name c.name with
    | none => findPhotoInDocs store pid rest st
    | some _ =>
      let fetched := get_container_indexS store c.name st
      match fetched.1 with
      | none => findPhotoInDocs store pid rest fetched.2
      | some d =>
        match d.photosField with
        | none => findPhotoInDocs store pid rest fetched.2
        | some PhotosValue.illTyped =>
          (.error "TypeError: photos is not iterable", fetched.2)
        | some (PhotosValue.wellTyped raw) =>
          match raw.find? (fun p => p.id = pid) with
          | some p => (.ok (some p), fetched.2)
          | none => findPhotoInDocs store pid rest fetched.2

/-- `BlobService.get_photo_by_id` (non-demo path) with explicit
effects. -/
def get_photo_by_idS (pid : String) (store : Store τ) (st : SState τ) :
    Except String (Option (Photo τ)) × SState τ :=
  findPhotoInDocs store pid store { st with enumCalls := st.enumCalls + 1 }

/-- `BlobService.get_available_years` (lines 149-175, non-demo path):
serve the cached year list under `"available_years"` when present,
otherwise enumerate containers, collect the distinct parsed years sorted
descending, and cache the result. -/
def get_available_yearsS (store : Store τ) (st : SState τ) :
    List Nat × SState τ :=
  match cacheGet "available_years" st.cache with
  | some (CacheVal.years ys) => (ys, st)
  | _ =>
    let st1 : SState τ := { st with enumCalls := st.enumCalls + 1 }
    let years := (store.filterMap fun c => (parse_container_name c.name).map (·.1)).dedup
    let result := years.insertionSort (· ≥ ·)
    (result, cacheSet "available_years" (CacheVal.years result) st1)

end Engine

/-- The claim's container-name pattern `^\d{4}-[qQ][1-4]$`, read with
the usual anchored semantics (`$` = end of string), written from the
spec's words (refinement target for `parse_container_name`). -/
def matchesPartitionPattern (s : String) : Bool :=
  match s.data with
  | [d1, d2, d3, d4, dash, qc, qd] =>
    d1.isDigit && d2.isDigit && d3.isDigit && d4.isDigit &&
      dash = '-' && (qc = 'q' || qc = 'Q') && '1' ≤ qd && qd ≤ '4'
  | _ => false

/-- What the code actually accepts on ASCII strings: the same pattern
under Python's `$` semantics, which also matches just before a single
newline ending the string. -/
def matchesPatternPython (s : String) : Bool :=
  match s.data with
  | [d1, d2, d3, d4, dash, qc, qd] =>
    d1.isDigit && d2.isDigit && d3.isDigit && d4.isDigit &&
      dash = '-' && (qc = 'q' || qc = 'Q') && '1' ≤ qd && qd ≤ '4'
  | [d1, d2, d3, d4, dash, qc, qd, nl] =>
    d1.isDigit && d2.isDigit && d3.isDigit && d4.isDigit &&
      dash = '-' && (qc = 'q' || qc = 'Q') && '1' ≤ qd && qd ≤ '4' &&
      nl = '\n'
  | _ => false

/-! ## The demo catalog (`DEMO_PHOTOS`), timestamps encoded as
`YYYYMMDDhhmmss` numbers (order-isomorphic to the ISO strings). -/

/-- `2025-12-15T16:30:00Z` -/
def ts1215 : Nat := 20251215163000
/-- `2025-11-20T10:15:00Z` -/
def ts1120 : Nat := 20251120101500
/-- `2025-10-05T21:45:00Z` -/
def ts1005 : Nat := 20251005214500
/-- `2025-08-22T14:00:00Z` -/
def ts0822 : Nat := 20250822140000
/-- `2025-07-10T09:30:00Z` -/
def ts0710 : Nat := 20250710093000
/-- `2024-12-25T11:00:00Z` -/
def ts1225 : Nat := 20241225110000

/-- `DEMO_PHOTOS` (lines 29-102 of `blob_service.py`), in dictionary
insertion order. -/
def demoStore : Store Nat :=
  [ ⟨"2025-q4", some ⟨some (PhotosValue.wellTyped
      [ ⟨"demo-001", ts1215⟩, ⟨"demo-002", ts1120⟩, ⟨"demo-003", ts1005⟩ ])⟩⟩,
    ⟨"2025-q3", some ⟨some (PhotosValue.wellTyped
      [ ⟨"demo-004", ts0822⟩, ⟨"demo-005", ts0710⟩ ])⟩⟩,
    ⟨"2024-q4", some ⟨some (PhotosValue.wellTyped
      [ ⟨"demo-006", ts1225⟩ ])⟩⟩ ]

/-- The page `get_photos_by_year 2025 none 5 demoStore` evaluates to:
all five 2025 demo photos across sections Q4 then Q3 (used as a concrete
input of witnesses). -/
def demoPage5 : PhotosResponse Nat :=
  ⟨2025,
    [⟨4, "October - December 2025",
      [⟨"demo-001", ts1215⟩, ⟨"demo-002", ts1120⟩, ⟨"demo-003", ts1005⟩]⟩,
     ⟨3, "July - September 2025",
      [⟨"demo-004", ts0822⟩, ⟨"demo-005", ts0710⟩]⟩],
    none, false⟩

/-! ## Decimal-representation helper lemmas (for the partition-id
round trip: `get_container_name` renders the year with `Nat.repr`). -/

theorem toDigitsCore_lt10 (f n : Nat) (ds : List Char) (h : n < 10) :
    Nat.toDigitsCore 10 (f + 1) n ds = Nat.digitChar n :: ds := by
  simp [Nat.toDigitsCore, Nat.div_eq_of_lt h, Nat.mod_eq_of_lt h]

theorem toDigitsCore_ge10 (f n : Nat) (hf : 1 ≤ f) (ds : List Char) (h : 10 ≤ n) :
    Nat.toDigitsCore 10 f n ds =
      Nat.toDigitsCore 10 (f - 1) (n / 10) (Nat.digitChar (n % 10) :: ds) := by
  obtain ⟨f', rfl⟩ : ∃ f', f = f' + 1 := ⟨f - 1, by omega⟩
  have hne : ¬ (n / 10 = 0) := by omega
  simp [Nat.toDigitsCore, hne]

theorem repr_four_digits (y : Nat) (h1 : 1000 ≤ y) (h2 : y ≤ 9999) :
    (Nat.repr y).data =
      [Nat.digitChar (y / 1000), Nat.digitChar (y / 100 % 10),
       Nat.digitChar (y / 10 % 10), Nat.digitChar (y % 10)] := by
  show (Nat.toDigitsCore 10 (y + 1) y []).asString.data = _
  rw [toDigitsCore_ge10 (y + 1) y (by omega) [] (by omega)]
  rw [toDigitsCore_ge10 (y + 1 - 1) (y / 10) (by omega) _ (by omega)]
  rw [Nat.div_div_eq_div_mul]
  rw [toDigitsCore_ge10 (y + 1 - 1 - 1) (y / 100) (by omega) _ (by omega)]
  rw [Nat.div_div_eq_div_mul]
  rw [show y + 1 - 1 - 1 - 1 = (y - 3) + 1 from by omega]
  rw [toDigitsCore_lt10 (y - 3) (y / 1000) _ (by omega)]
  rfl

theorem digitChar_props : ∀ d < 10,
    (Nat.digitChar d).isDigit = true ∧ (Nat.digitChar d).toNat - 48 = d := by decide

theorem roundtrip_aux (y q : Nat) (qd : Char)
    (hy1 : 1000 ≤ y) (hy2 : y ≤ 9999)
    (hq : (toString q).data = [qd]) (hlo : ('1' ≤ qd) = True) (hhi : (qd ≤ '4') = True)
    (hval : qd.toNat - 48 = q) :
    parse_container_name (get_container_name y q) = some (y, q) := by
  have hd := repr_four_digits y hy1 hy2
  have p1 := digitChar_props (y / 1000) (by omega)
  have p2 := digitChar_props (y / 100 % 10) (by omega)
  have p3 := digitChar_props (y / 10 % 10) (by omega)
  have p4 := digitChar_props (y % 10) (by omega)
  have hdata : (get_container_name y q).data =
      [Nat.digitChar (y / 1000), Nat.digitChar (y / 100 % 10),
       Nat.digitChar (y / 10 % 10), Nat.digitChar (y % 10), '-', 'q', qd] := by
    show ((toString y ++ "-q") ++ toString q).data = _
    rw [String.data_append, String.data_append]
    rw [show (toString y).data = (Nat.repr y).data from rfl, hd, hq]
    rfl
  simp only [parse_container_name, hdata, p1.1, p2.1, p3.1, p4.1]
  simp only [p1.2, p2.2, p3.2, p4.2, hval, hlo, hhi]
  norm_num
  omega

/-! ## Claim theorems -/

/-- C1 (code_bug evaluation): pagination completeness fails on the code.
Chaining `get_photos_by_year` over the demo catalogs for year 2025 with
`limit = 2`, feeding each `nextCursor` until `hasMore` is false, yields
only four of the five photos: `demo-003`, whose `takenAt` equals the
first page's `nextCursor`, is removed by the strict `takenAt < cursor`
filter of the second page and is never served. -/
theorem c1_chaining_drops_boundary_photo :
    (chainPages 2025 2 demoStore 10 none).map Photo.id =
        ["demo-001", "demo-002", "demo-004", "demo-005"] ∧
    "demo-003" ∈ (allYearPhotos 2025 demoStore).map Photo.id ∧
    "demo-003" ∉ (chainPages 2025 2 demoStore 10 none).map Photo.id := by decide

/-- C2 (code_bug evaluation): the spec's example scenario fails on the
code at the second call.  The first call matches the spec (section Q4
with the two most recent photos, `nextCursor` = demo-003's timestamp,
`hasMore` = true), but the second call with that cursor filters out
demo-003 itself (`takenAt < cursor` is strict) and returns only the two
Q3 photos instead of the remaining Q4 photo plus both Q3 photos. -/
theorem c2_example_scenario_second_call :
    get_photos_by_year 2025 none 2 demoStore =
      Except.ok (some ⟨2025, [⟨4, "October - December 2025",
        [⟨"demo-001", ts1215⟩, ⟨"demo-002", ts1120⟩]⟩], some ts1005, true⟩) ∧
    get_photos_by_year 2025 (some (some ts1005)) 10 demoStore =
      Except.ok (some ⟨2025, [⟨3, "July - September 2025",
        [⟨"demo-004", ts0822⟩, ⟨"demo-005", ts0710⟩]⟩], none, false⟩) ∧
    "demo-003" ∉
      (pagePhotos (get_photos_by_year 2025 (some (some ts1005)) 10 demoStore)).map
        Photo.id := by decide

/-- C6 (counterexample): malformed catalogs CAN cause an error.  For
the data-bearing year 2025, a second partition whose `index.json` is
`{"photos": null}` passes the `"photos" not in index` guard, and
`photos.sort(...)` then raises an uncaught exception: the whole request
fails (a 500 from the router), instead of the partition being skipped. -/
theorem c6_malformed_catalog_crashes :
    get_photos_by_year 2025 none 50
        [⟨"2025-q4", some ⟨some (PhotosValue.wellTyped [⟨"a", (5 : Nat)⟩])⟩⟩,
         ⟨"2025-q1", some ⟨some PhotosValue.illTyped⟩⟩] =
      Except.error sortCrash ∧
    get_photos_route 2025 none 50
        [⟨"2025-q4", some ⟨some (PhotosValue.wellTyped [⟨"a", (5 : Nat)⟩])⟩⟩,
         ⟨"2025-q1", some ⟨some PhotosValue.illTyped⟩⟩] =
      RouteResult.serverError sortCrash := by decide

/-- C6 (amended): a year with zero matching partitions yields an absent
result, which the router maps to a 404; a partition whose catalog is
missing, unreadable, or has no `"photos"` key is skipped by the
container loop without error; but a catalog whose `"photos"` key holds a
non-list value makes `photos.sort(...)` raise an uncaught exception that
fails the whole request — not a skipped partition. -/
theorem c6_unknown_year_amended {τ : Type} [LinearOrder τ] :
    (∀ (year : Nat) (cursor : RawCursor τ) (limit : Nat) (store : Store τ),
       containersForYear year store = [] →
       get_photos_by_year year cursor limit store = Except.ok none ∧
       get_photos_route year cursor limit store =
         RouteResult.notFound 404 ("No photos found for year " ++ toString year)) ∧
    (∀ (cursorDt : Option τ) (limit year : Nat) (c : Container τ) (q : Nat)
       (rest : List (Container τ × Nat)) (total : Nat),
       rawPhotos c = none →
       processContainers cursorDt limit year ((c, q) :: rest) total =
         processContainers cursorDt limit year rest total) ∧
    (∀ (cursorDt : Option τ) (limit year : Nat) (c : Container τ) (q : Nat)
       (rest : List (Container τ × Nat)) (total : Nat),
       rawPhotos c = some PhotosValue.illTyped →
       processContainers cursorDt limit year ((c, q) :: rest) total =
         Except.error sortCrash) := by
  refine ⟨?_, ?_, ?_⟩
  · intro year cursor limit store h
    have h1 : get_photos_by_year year cursor limit store = Except.ok none := by
      simp [get_photos_by_year, h]
    exact ⟨h1, by simp [get_photos_route, h1]⟩
  · intro cursorDt limit year c q rest total h
    simp [processContainers, h]
  · intro cursorDt limit year c q rest total h
    simp [processContainers, h]

/-- Witness for C6's amended theorem at concrete inputs: year 9999 has
no demo partition; a container with no index document is skipped; an
ill-typed catalog raises. -/
theorem c6_unknown_year_witness :
    get_photos_by_year 9999 none 50 demoStore = Except.ok none ∧
    get_photos_route 9999 none 50 demoStore =
      RouteResult.notFound 404 ("No photos found for year " ++ toString 9999) ∧
    processContainers (τ := Nat) none 50 2025 [(⟨"2025-q1", none⟩, 1)] 0 =
      processContainers none 50 2025 [] 0 ∧
    processContainers (τ := Nat) none 50 2025
        [(⟨"2025-q2", some ⟨some PhotosValue.illTyped⟩⟩, 2)] 0 =
      Except.error sortCrash := by
  refine ⟨?_, ?_, ?_, ?_⟩
  · exact (c6_unknown_year_amended.1 9999 none 50 demoStore (by decide)).1
  · exact (c6_unknown_year_amended.1 9999 none 50 demoStore (by decide)).2
  · exact c6_unknown_year_amended.2.1 none 50 2025 ⟨"2025-q1", none⟩ 1 [] 0 rfl
  · exact c6_unknown_year_amended.2.2 none 50 2025
      ⟨"2025-q2", some ⟨some PhotosValue.illTyped⟩⟩ 2 [] 0 rfl

/-- C7: a cursor that is present but does not parse as a timestamp is
treated exactly as an absent cursor: the whole listing result is
identical, no photo is cursor-filtered and no error is possible (the
model is a total function). -/
theorem c7_malformed_cursor_is_no_cursor {τ : Type} [LinearOrder τ]
    (year limit : Nat) (store : Store τ) :
    get_photos_by_year year (some none) limit store =
      get_photos_by_year year none limit store := rfl

/-- C8 (counterexample): the claim fails in both directions.  The round
trip fails for a valid partition id whose year has fewer than four
decimal digits (year 999 is a valid Python `datetime` year, but
`format(999, 1) = "999-q1"` does not match `\d{4}`); and parsing does
NOT return absent for every non-matching string: `"2025-q4\n"` does not
match the anchored pattern `^\d{4}-[qQ][1-4]$`, yet Python's `$` matches
before the trailing newline and the code parses it to `(2025, 4)`. -/
theorem c8_roundtrip_counterexample :
    parse_container_name (get_container_name 999 1) = none ∧
    parse_container_name (get_container_name 999 1) ≠ some (999, 1) ∧
    matchesPartitionPattern "2025-q4\n" = false ∧
    parse_container_name "2025-q4\n" = some (2025, 4) := by decide

/-- C8 (amended): the round trip `parse (format y q) = (y, q)` holds for
every partition id with a four-digit year (1000..9999) and quarter in
1..4; parsing accepts a pattern match optionally followed by one
trailing newline (Python's `$`); and every ASCII string accepted by
neither form parses to `none` rather than an error.  (Python's `\d` and
`int()` additionally accept non-ASCII Unicode decimal digits; the
theorem's last part therefore quantifies over ASCII strings, the only
container names reachable from Azure or the uploader.) -/
theorem c8_roundtrip_amended :
    (∀ y q : Nat, 1000 ≤ y → y ≤ 9999 → 1 ≤ q → q ≤ 4 →
       parse_container_name (get_container_name y q) = some (y, q)) ∧
    (parse_container_name "2025-q4\n" = some (2025, 4) ∧
       matchesPartitionPattern "2025-q4\n" = false ∧
       matchesPatternPython "2025-q4\n" = true) ∧
    (∀ s : String, (∀ ch ∈ s.data, ch.toNat < 128) →
       matchesPatternPython s = false → parse_container_name s = none) := by
  refine ⟨?_, by decide, ?_⟩
  · intro y q hy1 hy2 hq1 hq2
    interval_cases q
    · exact roundtrip_aux y 1 '1' hy1 hy2 (by decide) (by decide) (by decide) (by decide)
    · exact roundtrip_aux y 2 '2' hy1 hy2 (by decide) (by decide) (by decide) (by decide)
    · exact roundtrip_aux y 3 '3' hy1 hy2 (by decide) (by decide) (by decide) (by decide)
    · exact roundtrip_aux y 4 '4' hy1 hy2 (by decide) (by decide) (by decide) (by decide)
  · intro s _ hs
    rw [matchesPatternPython] at hs
    rw [parse_container_name]
    split
    · rename_i d1 d2 d3 d4 dash qc qd heq
      rw [heq] at hs
      have hs' : (d1.isDigit && d2.isDigit && d3.isDigit && d4.isDigit &&
          decide (dash = '-') && (decide (qc = 'q') || decide (qc = 'Q')) &&
          decide ('1' ≤ qd) && decide (qd ≤ '4')) = false := hs
      exact if_neg (by simp [hs'])
    · rename_i d1 d2 d3 d4 dash qc qd nl heq
      rw [heq] at hs
      have hs' : (d1.isDigit && d2.isDigit && d3.isDigit && d4.isDigit &&
          decide (dash = '-') && (decide (qc = 'q') || decide (qc = 'Q')) &&
          decide ('1' ≤ qd) && decide (qd ≤ '4') && decide (nl = '\n')) = false := hs
      exact if_neg (by simp [hs'])
    · rfl

/-- Witness for C8's amended theorem at concrete inputs. -/
theorem c8_roundtrip_amended_witness :
    parse_container_name (get_container_name 2025 4) = some (2025, 4) ∧
    parse_container_name "not-a-partition" = none :=
  ⟨c8_roundtrip_amended.1 2025 4 (by decide) (by decide) (by decide) (by decide),
   c8_roundtrip_amended.2.2 "not-a-partition" (by decide) (by decide)⟩

/-! ## Cursor-filter and pagination lemmas -/

theorem mem_candidates_some {τ : Type} [LinearOrder τ] (c : τ)
    (raw : List (Photo τ)) (p : Photo τ) :
    p ∈ candidates (some c) raw ↔ p ∈ raw ∧ p.takenAt < c := by
  simp [candidates, cursorFilter, sortPhotosDesc, List.mem_filter,
        List.mem_insertionSort]

/-- C3: inside `get_photos_by_year`, when a cursor timestamp is present
(the cursor parsed), the candidate list of every partition discards
exactly the photos with `takenAt ≥ cursor`: a photo with
`takenAt ≥ cursor` never appears among the candidates, and every catalog
photo with `takenAt < cursor` survives the filter. -/
theorem c3_cursor_filter_semantics {τ : Type} [LinearOrder τ]
    (c : τ) (raw : List (Photo τ)) (p : Photo τ) :
    (c ≤ p.takenAt → p ∉ candidates (some c) raw) ∧
    (p ∈ raw → p.takenAt < c → p ∈ candidates (some c) raw) ∧
    (p ∈ candidates (some c) raw → p ∈ raw ∧ p.takenAt < c) := by
  refine ⟨?_, ?_, ?_⟩
  · intro hge hmem
    exact absurd ((mem_candidates_some c raw p).mp hmem).2 (not_lt.mpr hge)
  · intro hmem hlt
    exact (mem_candidates_some c raw p).mpr ⟨hmem, hlt⟩
  · exact (mem_candidates_some c raw p).mp

/-- Witness for C3 on the demo catalogs with the cursor at demo-003's
timestamp: demo-003 (equal timestamp) is discarded, demo-005 (strictly
earlier) survives. -/
theorem c3_cursor_filter_witness :
    ((⟨"demo-003", ts1005⟩ : Photo Nat) ∉ candidates (some ts1005)
        [⟨"demo-001", ts1215⟩, ⟨"demo-002", ts1120⟩, ⟨"demo-003", ts1005⟩]) ∧
    (⟨"demo-005", ts0710⟩ : Photo Nat) ∈ candidates (some ts1005)
        [⟨"demo-004", ts0822⟩, ⟨"demo-005", ts0710⟩] :=
  ⟨(c3_cursor_filter_semantics ts1005 _ _).1 (by decide),
   (c3_cursor_filter_semantics ts1005 _ _).2.1 (by decide) (by decide)⟩

theorem takeWithCursor_of_le {τ : Type} [LinearOrder τ] (l : List (Photo τ)) :
    ∀ k, l.length ≤ k → takeWithCursor k l = (l, none) := by
  induction l with
  | nil => intro k _; cases k <;> rfl
  | cons p ps ih =>
    intro k hk
    cases k with
    | zero => simp at hk
    | succ k => simp [takeWithCursor, ih k (by simpa using hk)]

theorem containerCandidates_none {τ : Type} [LinearOrder τ] {cursorDt : Option τ}
    {c : Container τ} (h : rawPhotos c = none) :
    containerCandidates cursorDt c = [] := by
  simp [containerCandidates, h]

theorem containerCandidates_well {τ : Type} [LinearOrder τ] {cursorDt : Option τ}
    {c : Container τ} {raw : List (Photo τ)}
    (h : rawPhotos c = some (PhotosValue.wellTyped raw)) :
    containerCandidates cursorDt c = candidates cursorDt raw := by
  simp [containerCandidates, h]

theorem allCandidates_cons {τ : Type} [LinearOrder τ] (cursorDt : Option τ)
    (c : Container τ) (q : Nat) (rest : List (Container τ × Nat)) :
    allCandidates cursorDt ((c, q) :: rest) =
      containerCandidates cursorDt c ++ allCandidates cursorDt rest := by
  simp [allCandidates]

/-- When the photos remaining in the container sequence fit into the
remaining capacity and no reached catalog is ill-typed, the loop serves
every candidate of every container with no next cursor. -/
theorem processContainers_complete {τ : Type} [LinearOrder τ]
    (cursorDt : Option τ) (limit year : Nat) :
    ∀ (l : List (Container τ × Nat)) (total : Nat),
      (∀ cq ∈ l, rawPhotos cq.1 ≠ some PhotosValue.illTyped) →
      total + (allCandidates cursorDt l).length ≤ limit →
      ∃ r, processContainers cursorDt limit year l total = Except.ok r ∧
        r.2 = none ∧
        r.1.flatMap QuarterSection.photos = allCandidates cursorDt l := by
  intro l
  induction l with
  | nil => intro total _ _; exact ⟨([], none), rfl, rfl, rfl⟩
  | cons cq rest ih =>
    obtain ⟨c, q⟩ := cq
    intro total hwf h
    have hwfr : ∀ cq ∈ rest, rawPhotos cq.1 ≠ some PhotosValue.illTyped :=
      fun cq hm => hwf cq (List.mem_cons_of_mem _ hm)
    rw [allCandidates_cons] at h ⊢
    cases hraw : rawPhotos c with
    | none =>
      rw [containerCandidates_none hraw] at h ⊢
      simp only [List.nil_append] at h ⊢
      simp only [processContainers, hraw]
      exact ih total hwfr h
    | some pv =>
      cases pv with
      | illTyped => exact absurd hraw (hwf (c, q) (List.mem_cons_self _ _))
      | wellTyped raw =>
        rw [containerCandidates_well hraw] at h ⊢
        by_cases hemp : (candidates cursorDt raw).isEmpty
        · rw [List.isEmpty_iff] at hemp
          simp only [processContainers, hraw, hemp, List.isEmpty_nil, if_true]
          simp only [hemp, List.nil_append] at h ⊢
          exact ih total hwfr h
        · have hlen : (candidates cursorDt raw).length ≤ limit - total := by
            simp only [List.length_append] at h; omega
          have htp := takeWithCursor_of_le (candidates cursorDt raw) (limit - total) hlen
          simp only [processContainers, hraw, hemp, if_false]
          rw [htp]
          simp only [hemp, if_false]
          by_cases hbreak : limit ≤ total + (candidates cursorDt raw).length
          · simp only [hbreak, if_true]
            have hrest : (allCandidates cursorDt rest).length = 0 := by
              simp only [List.length_append] at h; omega
            rw [List.length_eq_zero] at hrest
            refine ⟨_, rfl, rfl, ?_⟩
            simp [hrest, hemp]
          · simp only [hbreak, if_false]
            obtain ⟨r0, heq, h2, h3⟩ := ih (total + (candidates cursorDt raw).length) hwfr
              (by simp only [List.length_append] at h; omega)
            rw [heq]
            refine ⟨_, rfl, h2, ?_⟩
            simp [h3, hemp]

/-- C5: (i) for a year whose partitions contain well-typed catalogs,
when the requested `limit` equals the exact number of candidate photos
(after cursor filtering), the page contains every candidate of every
partition, `hasMore` is false and `nextCursor` is absent — no phantom
next page; (ii) in every result, `hasMore` is true exactly when
`nextCursor` is present. -/
theorem c5_limit_boundary {τ : Type} [LinearOrder τ] :
    (∀ (year : Nat) (cursor : RawCursor τ) (limit : Nat) (store : Store τ),
       (containersForYear year store).isEmpty = false →
       (∀ cq ∈ (containersForYear year store).insertionSort quarterGE,
          rawPhotos cq.1 ≠ some PhotosValue.illTyped) →
       limit = (allCandidates (parsedCursor cursor)
         ((containersForYear year store).insertionSort quarterGE)).length →
       ∃ r, get_photos_by_year year cursor limit store = Except.ok (some r) ∧
         r.hasMore = false ∧ r.nextCursor = none ∧
         r.sections.flatMap QuarterSection.photos =
           allCandidates (parsedCursor cursor)
             ((containersForYear year store).insertionSort quarterGE)) ∧
    (∀ (year : Nat) (cursor : RawCursor τ) (limit : Nat) (store : Store τ)
       (r : PhotosResponse τ),
       get_photos_by_year year cursor limit store = Except.ok (some r) →
       (r.hasMore = true ↔ r.nextCursor.isSome = true)) := by
  constructor
  · intro year cursor limit store hne hwf hlim
    obtain ⟨r0, heq, h2, h3⟩ := processContainers_complete (parsedCursor cursor) limit year
      ((containersForYear year store).insertionSort quarterGE) 0 hwf (by omega)
    have hget : get_photos_by_year year cursor limit store =
        Except.ok (some ⟨year, r0.1, r0.2, r0.2.isSome⟩) := by
      simp only [get_photos_by_year, hne, Bool.false_eq_true, if_false, heq, Except.map]
    exact ⟨_, hget, by simp [h2], h2, h3⟩
  · intro year cursor limit store r h
    rw [get_photos_by_year] at h
    split at h
    · exact absurd h (by simp)
    · cases heq : processContainers (parsedCursor cursor) limit year
          ((containersForYear year store).insertionSort quarterGE) 0 with
      | error e =>
        simp only [heq, Except.map] at h
        exact absurd h (by simp)
      | ok r0 =>
        simp only [heq, Except.map, Except.ok.injEq, Option.some_inj] at h
        subst h
        exact Iff.rfl

/-- Witness for C5 on the demo catalogs: year 2025 holds exactly five
photos, and `limit = 5` yields a full page with `hasMore = false` and no
cursor; the `hasMore`/`nextCursor` equivalence at a concrete page. -/
theorem c5_limit_boundary_witness :
    (∃ r, get_photos_by_year 2025 (none : RawCursor Nat) 5 demoStore =
        Except.ok (some r) ∧
       r.hasMore = false ∧ r.nextCursor = none ∧
       r.sections.flatMap QuarterSection.photos =
         allCandidates (parsedCursor (none : RawCursor Nat))
           ((containersForYear 2025 demoStore).insertionSort quarterGE)) ∧
    ((⟨2025, [⟨4, "October - December 2025",
        [⟨"demo-001", ts1215⟩, ⟨"demo-002", ts1120⟩]⟩], some ts1005, true⟩ :
          PhotosResponse Nat).hasMore = true ↔
      (⟨2025, [⟨4, "October - December 2025",
        [⟨"demo-001", ts1215⟩, ⟨"demo-002", ts1120⟩]⟩], some ts1005, true⟩ :
          PhotosResponse Nat).nextCursor.isSome = true) :=
  ⟨c5_limit_boundary.1 2025 none 5 demoStore (by decide) (by decide) (by decide),
   c5_limit_boundary.2 2025 none 2 demoStore _ (by decide)⟩

/-! ## Ordering and stability lemmas for the output page -/

theorem takeWithCursor_fst {τ : Type} [LinearOrder τ] (l : List (Photo τ)) :
    ∀ k, (takeWithCursor k l).1 = l.take k := by
  induction l with
  | nil => intro k; cases k <;> rfl
  | cons p ps ih =>
    intro k
    cases k with
    | zero => rfl
    | succ k => simp [takeWithCursor, ih k]

theorem candidates_pairwise {τ : Type} [LinearOrder τ]
    (cursorDt : Option τ) (raw : List (Photo τ)) :
    (candidates cursorDt raw).Pairwise photoGE := by
  have hs : (sortPhotosDesc raw).Pairwise photoGE :=
    List.sorted_insertionSort photoGE raw
  cases cursorDt with
  | none => exact hs
  | some c => exact hs.filter _

/-- Stability of the descending sort: a class of photos sharing one
`takenAt` value keeps exactly its storage order. -/
theorem sortPhotosDesc_filter_class {τ : Type} [LinearOrder τ]
    (raw : List (Photo τ)) (t : τ) :
    (sortPhotosDesc raw).filter (fun p => p.takenAt = t) =
      raw.filter (fun p => p.takenAt = t) := by
  have hpair : (raw.filter (fun p => p.takenAt = t)).Pairwise photoGE := by
    apply List.pairwise_of_forall_mem_list
    intro x hx y hy
    have hx' := (List.mem_filter.mp hx).2
    have hy' := (List.mem_filter.mp hy).2
    simp only [decide_eq_true_eq] at hx' hy'
    show y.takenAt ≤ x.takenAt
    rw [hx', hy']
  have hsub : (raw.filter (fun p => p.takenAt = t)).Sublist (sortPhotosDesc raw) :=
    List.sublist_insertionSort hpair (List.filter_sublist raw)
  have hself : (raw.filter (fun p => p.takenAt = t)).filter (fun p => p.takenAt = t) =
      raw.filter (fun p => p.takenAt = t) :=
    List.filter_eq_self.mpr fun a ha => (List.mem_filter.mp ha).2
  have hsub2 : (raw.filter (fun p => p.takenAt = t)).Sublist
      ((sortPhotosDesc raw).filter (fun p => p.takenAt = t)) := by
    have := hsub.filter (fun p => p.takenAt = t)
    rwa [hself] at this
  have hlen : ((sortPhotosDesc raw).filter (fun p => p.takenAt = t)).length =
      (raw.filter (fun p => p.takenAt = t)).length :=
    ((List.perm_insertionSort photoGE raw).filter _).length_eq
  exact (hsub2.eq_of_length hlen.symm).symm

/-- The candidate list's photos of one `takenAt` class form a sublist of
the catalog's photos of that class: relative storage order of ties is
preserved through sort and cursor filter. -/
theorem candidates_filter_class {τ : Type} [LinearOrder τ]
    (cursorDt : Option τ) (raw : List (Photo τ)) (t : τ) :
    ((candidates cursorDt raw).filter (fun p => p.takenAt = t)).Sublist
      (raw.filter (fun p => p.takenAt = t)) := by
  cases cursorDt with
  | none =>
    rw [show candidates none raw = sortPhotosDesc raw from rfl,
        sortPhotosDesc_filter_class]
  | some c =>
    have h1 : ((candidates (some c) raw).filter (fun p => p.takenAt = t)).Sublist
        ((sortPhotosDesc raw).filter (fun p => p.takenAt = t)) :=
      (List.filter_sublist _).filter _
    rwa [sortPhotosDesc_filter_class] at h1

/-- Every emitted section's quarter tag occurs, in order, among the
processed containers' quarters. -/
theorem processContainers_quarters {τ : Type} [LinearOrder τ]
    (cursorDt : Option τ) (limit year : Nat) :
    ∀ (l : List (Container τ × Nat)) (total : Nat)
      (r : List (QuarterSection τ) × Option τ),
      processContainers cursorDt limit year l total = Except.ok r →
      (r.1.map QuarterSection.quarter).Sublist (l.map fun cq => cq.2) := by
  intro l
  induction l with
  | nil =>
    intro total r h
    simp only [processContainers, Except.ok.injEq] at h
    subst h
    simp
  | cons cq rest ih =>
    obtain ⟨c, q⟩ := cq
    intro total r h
    cases hraw : rawPhotos c with
    | none =>
      simp only [processContainers, hraw] at h
      exact (ih total r h).trans (List.sublist_cons_self _ _)
    | some pv =>
      cases pv with
      | illTyped =>
        simp only [processContainers, hraw] at h
        exact absurd h (by simp)
      | wellTyped raw =>
        simp only [processContainers, hraw] at h
        by_cases hemp : (candidates cursorDt raw).isEmpty
        · rw [if_pos hemp] at h
          exact (ih total r h).trans (List.sublist_cons_self _ _)
        · rw [if_neg hemp] at h
          by_cases hbreak : limit ≤ total +
              (takeWithCursor (limit - total) (candidates cursorDt raw)).1.length
          · rw [if_pos hbreak] at h
            injection h with h'
            subst h'
            by_cases htp : (takeWithCursor (limit - total) (candidates cursorDt raw)).1.isEmpty
            · simp [htp]
            · simp only [if_neg htp, List.map_cons, List.map_nil]
              exact List.Sublist.cons₂ _ (List.nil_sublist _)
          · rw [if_neg hbreak] at h
            revert h
            cases heq : processContainers cursorDt limit year rest
                (total + (takeWithCursor (limit - total) (candidates cursorDt raw)).1.length) with
            | error e => intro h; exact absurd h (by simp)
            | ok rr =>
              intro h
              injection h with h'
              subst h'
              by_cases htp : (takeWithCursor (limit - total)
                  (candidates cursorDt raw)).1.isEmpty
              · simp only [if_pos htp, List.nil_append]
                exact (ih _ rr heq).trans (List.sublist_cons_self _ _)
              · simp only [if_neg htp, List.singleton_append, List.map_cons]
                exact List.Sublist.cons₂ _ (ih _ rr heq)

/-- Every emitted section comes from a processed container of the same
quarter, and its photos are an in-order selection from that container's
candidate list. -/
theorem processContainers_sections {τ : Type} [LinearOrder τ]
    (cursorDt : Option τ) (limit year : Nat) :
    ∀ (l : List (Container τ × Nat)) (total : Nat)
      (r : List (QuarterSection τ) × Option τ) (s : QuarterSection τ),
      processContainers cursorDt limit year l total = Except.ok r →
      s ∈ r.1 →
      ∃ cq, cq ∈ l ∧ cq.2 = s.quarter ∧
        ∃ raw, rawPhotos cq.1 = some (PhotosValue.wellTyped raw) ∧
          s.photos.Sublist (candidates cursorDt raw) := by
  intro l
  induction l with
  | nil =>
    intro total r s h hs
    simp only [processContainers, Except.ok.injEq] at h
    subst h
    simp at hs
  | cons cq rest ih =>
    obtain ⟨c, q⟩ := cq
    intro total r s h hs
    cases hraw : rawPhotos c with
    | none =>
      simp only [processContainers, hraw] at h
      obtain ⟨cq', h1, h2⟩ := ih total r s h hs
      exact ⟨cq', List.mem_cons_of_mem _ h1, h2⟩
    | some pv =>
      cases pv with
      | illTyped =>
        simp only [processContainers, hraw] at h
        exact absurd h (by simp)
      | wellTyped raw =>
        simp only [processContainers, hraw] at h
        by_cases hemp : (candidates cursorDt raw).isEmpty
        · rw [if_pos hemp] at h
          obtain ⟨cq', h1, h2⟩ := ih total r s h hs
          exact ⟨cq', List.mem_cons_of_mem _ h1, h2⟩
        · rw [if_neg hemp] at h
          by_cases hbreak : limit ≤ total +
              (takeWithCursor (limit - total) (candidates cursorDt raw)).1.length
          · rw [if_pos hbreak] at h
            injection h with h'
            subst h'
            by_cases htp : (takeWithCursor (limit - total) (candidates cursorDt raw)).1.isEmpty
            · rw [if_pos htp] at hs
              simp at hs
            · rw [if_neg htp] at hs
              simp only [List.mem_singleton] at hs
              subst hs
              refine ⟨(c, q), List.mem_cons_self _ _, rfl, raw, hraw, ?_⟩
              rw [takeWithCursor_fst]
              exact List.take_sublist _ _
          · rw [if_neg hbreak] at h
            revert h
            cases heq : processContainers cursorDt limit year rest
                (total + (takeWithCursor (limit - total) (candidates cursorDt raw)).1.length) with
            | error e => intro h; exact absurd h (by simp)
            | ok rr =>
              intro h
              injection h with h'
              subst h'
              by_cases htp : (takeWithCursor (limit - total)
                  (candidates cursorDt raw)).1.isEmpty
              · rw [if_pos htp] at hs
                simp only [List.nil_append] at hs
                obtain ⟨cq', h1, h2⟩ := ih _ rr s heq hs
                exact ⟨cq', List.mem_cons_of_mem _ h1, h2⟩
              · rw [if_neg htp] at hs
                simp only [List.singleton_append] at hs
                rcases List.mem_cons.mp hs with hs | hs
                · subst hs
                  refine ⟨(c, q), List.mem_cons_self _ _, rfl, raw, hraw, ?_⟩
                  rw [takeWithCursor_fst]
                  exact List.take_sublist _ _
                · obtain ⟨cq', h1, h2⟩ := ih _ rr s heq hs
                  exact ⟨cq', List.mem_cons_of_mem _ h1, h2⟩

/-- C4: in every successfully returned page (for a year whose containers
carry pairwise distinct quarters, i.e. a set of partitions), the
sections appear in strictly descending quarter order; within each
section the photos are in non-increasing `takenAt` order; and photos of
equal `takenAt` appear in the catalog's original relative order (each
`takenAt` class of a section is an in-order sublist of the source
catalog's class). -/
theorem c4_output_ordering {τ : Type} [LinearOrder τ]
    (year : Nat) (cursor : RawCursor τ) (limit : Nat) (store : Store τ)
    (r : PhotosResponse τ)
    (hq : ((containersForYear year store).map fun cq => cq.2).Nodup)
    (hr : get_photos_by_year year cursor limit store = Except.ok (some r)) :
    ((r.sections.map QuarterSection.quarter).Pairwise fun a b => b < a) ∧
    (∀ s ∈ r.sections, (s.photos.map Photo.takenAt).Pairwise fun a b => b ≤ a) ∧
    (∀ s ∈ r.sections, ∃ cq, cq ∈ containersForYear year store ∧ cq.2 = s.quarter ∧
      ∃ raw, rawPhotos cq.1 = some (PhotosValue.wellTyped raw) ∧ ∀ t : τ,
        (s.photos.filter fun p => p.takenAt = t).Sublist
          (raw.filter fun p => p.takenAt = t)) := by
  rw [get_photos_by_year] at hr
  split at hr
  · exact absurd hr (by simp)
  · cases heq : processContainers (parsedCursor cursor) limit year
        ((containersForYear year store).insertionSort quarterGE) 0 with
    | error e =>
      simp only [heq, Except.map] at hr
      exact absurd hr (by simp)
    | ok r0 =>
      simp only [heq, Except.map, Except.ok.injEq, Option.some_inj] at hr
      subst hr
      refine ⟨?_, ?_, ?_⟩
      · have hsub := processContainers_quarters (parsedCursor cursor) limit year
          ((containersForYear year store).insertionSort quarterGE) 0 r0 heq
        have hsorted : ((((containersForYear year store).insertionSort quarterGE)).map
            fun cq => cq.2).Pairwise fun a b => b ≤ a :=
          List.pairwise_map.mpr (List.sorted_insertionSort quarterGE _)
        have hnodup : ((((containersForYear year store).insertionSort quarterGE)).map
            fun cq => cq.2).Nodup :=
          hq.perm ((List.perm_insertionSort quarterGE _).map fun cq => cq.2).symm
        have hstrict : ((((containersForYear year store).insertionSort quarterGE)).map
            fun cq => cq.2).Pairwise fun a b => b < a :=
          (hsorted.and hnodup).imp fun h => lt_of_le_of_ne h.1 fun e => h.2 e.symm
        exact List.Pairwise.sublist hsub hstrict
      · intro s hs
        obtain ⟨cq, _, _, raw, hraw, hsubl⟩ := processContainers_sections
          (parsedCursor cursor) limit year _ 0 r0 s heq hs
        have hp : s.photos.Pairwise photoGE :=
          List.Pairwise.sublist hsubl (candidates_pairwise _ raw)
        exact List.pairwise_map.mpr hp
      · intro s hs
        obtain ⟨cq, hmem, hq2, raw, hraw, hsubl⟩ := processContainers_sections
          (parsedCursor cursor) limit year _ 0 r0 s heq hs
        refine ⟨cq, ?_, hq2, raw, hraw, fun t => ?_⟩
        · exact (List.mem_insertionSort quarterGE).mp hmem
        · exact (hsubl.filter _).trans (candidates_filter_class (parsedCursor cursor) raw t)

/-- Witness for C4 at the demo store (year 2025, no cursor, limit 5):
the page holds sections Q4 then Q3, ordered as claimed. -/
theorem c4_output_ordering_witness :
    ((((demoPage5 : PhotosResponse Nat)).sections.map QuarterSection.quarter).Pairwise
        fun a b => b < a) ∧
    (∀ s ∈ (demoPage5 : PhotosResponse Nat).sections,
       (s.photos.map Photo.takenAt).Pairwise fun a b => b ≤ a) ∧
    (∀ s ∈ (demoPage5 : PhotosResponse Nat).sections,
       ∃ cq, cq ∈ containersForYear 2025 demoStore ∧ cq.2 = s.quarter ∧
         ∃ raw, rawPhotos cq.1 = some (PhotosValue.wellTyped raw) ∧ ∀ t : Nat,
           (s.photos.filter fun p => p.takenAt = t).Sublist
             (raw.filter fun p => p.takenAt = t)) :=
  c4_output_ordering 2025 none 5 demoStore demoPage5 (by decide) (by decide)

/-! ## Frame-effect lemmas: cache state and store enumeration -/

theorem cacheSet_enum {τ : Type} (k : String) (v : CacheVal τ) (st : SState τ) :
    (cacheSet k v st).enumCalls = st.enumCalls := rfl

theorem get_container_indexS_enum {τ : Type} [LinearOrder τ] (store : Store τ)
    (name : String) (st : SState τ) :
    ((get_container_indexS store name st).2).enumCalls = st.enumCalls := by
  rw [get_container_indexS]
  split
  · rfl
  · split
    · rfl
    · rfl

theorem processContainersS_enum {τ : Type} [LinearOrder τ] (store : Store τ)
    (cursorDt : Option τ) (limit year : Nat) :
    ∀ (l : List (Container τ × Nat)) (total : Nat) (st : SState τ),
      ((processContainersS store cursorDt limit year l total st).2).enumCalls =
        st.enumCalls := by
  intro l
  induction l with
  | nil => intro total st; rfl
  | cons cq rest ih =>
    obtain ⟨c, q⟩ := cq
    intro total st
    simp only [processContainersS]
    split
    · rw [ih, get_container_indexS_enum]
    · rename_i d heq
      split
      · rw [ih, get_container_indexS_enum]
      · exact get_container_indexS_enum store c.name st
      · rename_i raw hp
        split
        · rw [ih, cacheSet_enum, get_container_indexS_enum]
        · split
          · rw [cacheSet_enum, get_container_indexS_enum]
          · rw [ih, cacheSet_enum, get_container_indexS_enum]

theorem cacheGet_setList_ne {τ : Type} (k k2 : String) (v : CacheVal τ) (h : k ≠ k2) :
    ∀ l, cacheGet k (cacheSetList k2 v l) = cacheGet k l := by
  intro l
  induction l with
  | nil =>
    show cacheGet k [(k2, v)] = cacheGet k []
    simp only [cacheGet]
    rw [if_neg (fun hh => h hh.symm)]
  | cons e rest ih =>
    by_cases he : e.1 = k2
    · simp only [cacheSetList, he, if_true]
      show cacheGet k ((k2, v) :: rest) = cacheGet k (e :: rest)
      simp only [cacheGet]
      rw [if_neg (fun hh => h hh.symm), if_neg (fun hh => h (hh.symm.trans he))]
    · simp only [cacheSetList, he, if_false, cacheGet, ih]

theorem get_container_indexS_cache_ne {τ : Type} [LinearOrder τ] (store : Store τ)
    (name : String) (st : SState τ) (k : String) (h : k ≠ "index:" ++ name) :
    cacheGet k ((get_container_indexS store name st).2).cache = cacheGet k st.cache := by
  rw [get_container_indexS]
  split
  · rfl
  · split
    · rfl
    · exact cacheGet_setList_ne k _ _ h st.cache

theorem processContainersS_cache_ne {τ : Type} [LinearOrder τ] (store : Store τ)
    (cursorDt : Option τ) (limit year : Nat) (k : String)
    (hk : ∀ name, k ≠ "index:" ++ name) :
    ∀ (l : List (Container τ × Nat)) (total : Nat) (st : SState τ),
      cacheGet k ((processContainersS store cursorDt limit year l total st).2).cache =
        cacheGet k st.cache := by
  intro l
  induction l with
  | nil => intro total st; rfl
  | cons cq rest ih =>
    obtain ⟨c, q⟩ := cq
    intro total st
    simp only [processContainersS]
    split
    · rw [ih, get_container_indexS_cache_ne store c.name st k (hk c.name)]
    · split
      · rw [ih, get_container_indexS_cache_ne store c.name st k (hk c.name)]
      · exact get_container_indexS_cache_ne store c.name st k (hk c.name)
      · split
        · rw [ih]
          show cacheGet k (cacheSet _ _ _).cache = _
          rw [cacheSet]
          rw [cacheGet_setList_ne k _ _ (hk c.name)]
          exact get_container_indexS_cache_ne store c.name st k (hk c.name)
        · split
          · show cacheGet k (cacheSet _ _ _).cache = _
            rw [cacheSet]
            rw [cacheGet_setList_ne k _ _ (hk c.name)]
            exact get_container_indexS_cache_ne store c.name st k (hk c.name)
          · rw [ih]
            show cacheGet k (cacheSet _ _ _).cache = _
            rw [cacheSet]
            rw [cacheGet_setList_ne k _ _ (hk c.name)]
            exact get_container_indexS_cache_ne store c.name st k (hk c.name)

theorem sortPhotosDesc_idem {τ : Type} [LinearOrder τ] (l : List (Photo τ)) :
    sortPhotosDesc (sortPhotosDesc l) = sortPhotosDesc l :=
  List.Sorted.insertionSort_eq (List.sorted_insertionSort photoGE l)

theorem get_container_indexS_hit {τ : Type} [LinearOrder τ] (store : Store τ)
    (name : String) (st : SState τ) (d : IndexDoc τ)
    (h : cacheGet ("index:" ++ name) st.cache = some (CacheVal.idx d)) :
    get_container_indexS store name st = (some d, st) := by
  rw [get_container_indexS, h]

theorem index_key_inj (a b : String) (h : ("index:" ++ a : String) = "index:" ++ b) :
    a = b := by
  have h1 := congrArg String.data h
  rw [String.data_append, String.data_append] at h1
  have h2 := List.append_cancel_left h1
  cases a; cases b; simp only [String.data] at h2; rw [h2]

theorem cacheGet_setList_self {τ : Type} (k : String) (v : CacheVal τ) :
    ∀ l, cacheGet k (cacheSetList k v l) = some v := by
  intro l
  induction l with
  | nil => simp [cacheSetList, cacheGet]
  | cons e rest ih =>
    by_cases he : e.1 = k
    · simp [cacheSetList, he, cacheGet]
    · simp [cacheSetList, he, cacheGet, ih]

theorem processContainersS_snd_none {τ : Type} [LinearOrder τ] {store : Store τ}
    {cursorDt : Option τ} {limit year : Nat} {c : Container τ} {q : Nat}
    {rest : List (Container τ × Nat)} {total : Nat} {st st2 : SState τ}
    (hfetch : get_container_indexS store c.name st = (none, st2)) :
    (processContainersS store cursorDt limit year ((c, q) :: rest) total st).2 =
      (processContainersS store cursorDt limit year rest total st2).2 := by
  simp only [processContainersS, hfetch]

theorem processContainersS_snd_nophotos {τ : Type} [LinearOrder τ] {store : Store τ}
    {cursorDt : Option τ} {limit year : Nat} {c : Container τ} {q : Nat}
    {rest : List (Container τ × Nat)} {total : Nat} {st st2 : SState τ}
    (d : IndexDoc τ)
    (hfetch : get_container_indexS store c.name st = (some d, st2))
    (hp : d.photosField = none) :
    (processContainersS store cursorDt limit year ((c, q) :: rest) total st).2 =
      (processContainersS store cursorDt limit year rest total st2).2 := by
  simp only [processContainersS, hfetch, hp]

theorem processContainersS_snd_illTyped {τ : Type} [LinearOrder τ] {store : Store τ}
    {cursorDt : Option τ} {limit year : Nat} {c : Container τ} {q : Nat}
    {rest : List (Container τ × Nat)} {total : Nat} {st st2 : SState τ}
    (d : IndexDoc τ)
    (hfetch : get_container_indexS store c.name st = (some d, st2))
    (hp : d.photosField = some PhotosValue.illTyped) :
    (processContainersS store cursorDt limit year ((c, q) :: rest) total st).2 = st2 := by
  simp only [processContainersS, hfetch, hp]

theorem processContainersS_snd_skip {τ : Type} [LinearOrder τ] {store : Store τ}
    {cursorDt : Option τ} {limit year : Nat} {c : Container τ} {q : Nat}
    {rest : List (Container τ × Nat)} {total : Nat} {st st2 : SState τ}
    (d : IndexDoc τ) (raw : List (Photo τ))
    (hfetch : get_container_indexS store c.name st = (some d, st2))
    (hp : d.photosField = some (PhotosValue.wellTyped raw))
    (he : (cursorFilter cursorDt (sortPhotosDesc raw)).isEmpty = true) :
    (processContainersS store cursorDt limit year ((c, q) :: rest) total st).2 =
      (processContainersS store cursorDt limit year rest total
        (cacheSet ("index:" ++ c.name)
          (CacheVal.idx ⟨some (PhotosValue.wellTyped (sortPhotosDesc raw))⟩) st2)).2 := by
  simp only [processContainersS, hfetch, hp, he, if_true]

theorem processContainersS_snd_break {τ : Type} [LinearOrder τ] {store : Store τ}
    {cursorDt : Option τ} {limit year : Nat} {c : Container τ} {q : Nat}
    {rest : List (Container τ × Nat)} {total : Nat} {st st2 : SState τ}
    (d : IndexDoc τ) (raw : List (Photo τ))
    (hfetch : get_container_indexS store c.name st = (some d, st2))
    (hp : d.photosField = some (PhotosValue.wellTyped raw))
    (he : ¬ (cursorFilter cursorDt (sortPhotosDesc raw)).isEmpty = true)
    (hb : limit ≤ total +
      (takeWithCursor (limit - total) (cursorFilter cursorDt (sortPhotosDesc raw))).1.length) :
    (processContainersS store cursorDt limit year ((c, q) :: rest) total st).2 =
      cacheSet ("index:" ++ c.name)
        (CacheVal.idx ⟨some (PhotosValue.wellTyped (sortPhotosDesc raw))⟩) st2 := by
  simp only [processContainersS, hfetch, hp]
  rw [if_neg he, if_pos hb]

theorem processContainersS_snd_cont {τ : Type} [LinearOrder τ] {store : Store τ}
    {cursorDt : Option τ} {limit year : Nat} {c : Container τ} {q : Nat}
    {rest : List (Container τ × Nat)} {total : Nat} {st st2 : SState τ}
    (d : IndexDoc τ) (raw : List (Photo τ))
    (hfetch : get_container_indexS store c.name st = (some d, st2))
    (hp : d.photosField = some (PhotosValue.wellTyped raw))
    (he : ¬ (cursorFilter cursorDt (sortPhotosDesc raw)).isEmpty = true)
    (hb : ¬ limit ≤ total +
      (takeWithCursor (limit - total) (cursorFilter cursorDt (sortPhotosDesc raw))).1.length) :
    (processContainersS store cursorDt limit year ((c, q) :: rest) total st).2 =
      (processContainersS store cursorDt limit year rest
        (total + (takeWithCursor (limit - total)
          (cursorFilter cursorDt (sortPhotosDesc raw))).1.length)
        (cacheSet ("index:" ++ c.name)
          (CacheVal.idx ⟨some (PhotosValue.wellTyped (sortPhotosDesc raw))⟩) st2)).2 := by
  simp only [processContainersS, hfetch, hp]
  rw [if_neg he, if_neg hb]

/-- The container loop touches a cached catalog document only to
replace it by its stably sorted version (the in-place `photos.sort`),
and leaves every other cache entry unchanged. -/
theorem processContainersS_cached_doc {τ : Type} [LinearOrder τ] (store : Store τ)
    (cursorDt : Option τ) (limit year : Nat) (name : String) (d : IndexDoc τ) :
    ∀ (l : List (Container τ × Nat)) (total : Nat) (st : SState τ),
      (cacheGet ("index:" ++ name) st.cache = some (CacheVal.idx d) ∨
        cacheGet ("index:" ++ name) st.cache =
          some (CacheVal.idx ⟨d.photosField.map sortPhotosValue⟩)) →
      (cacheGet ("index:" ++ name)
          ((processContainersS store cursorDt limit year l total st).2).cache =
            some (CacheVal.idx d) ∨
        cacheGet ("index:" ++ name)
          ((processContainersS store cursorDt limit year l total st).2).cache =
            some (CacheVal.idx ⟨d.photosField.map sortPhotosValue⟩)) := by
  obtain ⟨pf⟩ := d
  intro l
  induction l with
  | nil => intro total st h; exact h
  | cons cq rest ih =>
    obtain ⟨c, q⟩ := cq
    intro total st h
    by_cases hc : c.name = name
    · subst hc
      rcases h with h | h
      · have hfetch := get_container_indexS_hit store c.name st ⟨pf⟩ h
        cases pf with
        | none =>
          rw [processContainersS_snd_nophotos ⟨none⟩ hfetch rfl]
          exact ih total st (Or.inl h)
        | some pv =>
          cases pv with
          | illTyped =>
            rw [processContainersS_snd_illTyped ⟨some PhotosValue.illTyped⟩ hfetch rfl]
            exact Or.inl h
          | wellTyped raw =>
            have hnew : cacheGet ("index:" ++ c.name) (cacheSet ("index:" ++ c.name)
                (CacheVal.idx ⟨some (PhotosValue.wellTyped (sortPhotosDesc raw))⟩) st).cache =
                some (CacheVal.idx ⟨some (PhotosValue.wellTyped (sortPhotosDesc raw))⟩) := by
              show cacheGet _ (cacheSetList _ _ st.cache) = _
              rw [cacheGet_setList_self]
            by_cases he : (cursorFilter cursorDt (sortPhotosDesc raw)).isEmpty = true
            · rw [processContainersS_snd_skip ⟨some (PhotosValue.wellTyped raw)⟩
                raw hfetch rfl he]
              exact ih total _ (Or.inr hnew)
            · by_cases hb : limit ≤ total + (takeWithCursor (limit - total)
                  (cursorFilter cursorDt (sortPhotosDesc raw))).1.length
              · rw [processContainersS_snd_break ⟨some (PhotosValue.wellTyped raw)⟩
                  raw hfetch rfl he hb]
                exact Or.inr hnew
              · rw [processContainersS_snd_cont ⟨some (PhotosValue.wellTyped raw)⟩
                  raw hfetch rfl he hb]
                exact ih _ _ (Or.inr hnew)
      · have hfetch := get_container_indexS_hit store c.name st
          ⟨Option.map sortPhotosValue pf⟩ h
        cases pf with
        | none =>
          rw [processContainersS_snd_nophotos ⟨Option.map sortPhotosValue none⟩ hfetch rfl]
          exact ih total st (Or.inr h)
        | some pv =>
          cases pv with
          | illTyped =>
            rw [processContainersS_snd_illTyped
              ⟨Option.map sortPhotosValue (some PhotosValue.illTyped)⟩ hfetch rfl]
            exact Or.inr h
          | wellTyped raw =>
            have hnew : cacheGet ("index:" ++ c.name) (cacheSet ("index:" ++ c.name)
                (CacheVal.idx ⟨some (PhotosValue.wellTyped
                  (sortPhotosDesc (sortPhotosDesc raw)))⟩) st).cache =
                some (CacheVal.idx ⟨some (PhotosValue.wellTyped (sortPhotosDesc raw))⟩) := by
              show cacheGet _ (cacheSetList _ _ st.cache) = _
              rw [cacheGet_setList_self, sortPhotosDesc_idem]
            by_cases he : (cursorFilter cursorDt
                (sortPhotosDesc (sortPhotosDesc raw))).isEmpty = true
            · rw [processContainersS_snd_skip
                ⟨Option.map sortPhotosValue (some (PhotosValue.wellTyped raw))⟩
                (sortPhotosDesc raw) hfetch rfl he]
              exact ih total _ (Or.inr hnew)
            · by_cases hb : limit ≤ total + (takeWithCursor (limit - total)
                  (cursorFilter cursorDt (sortPhotosDesc (sortPhotosDesc raw)))).1.length
              · rw [processContainersS_snd_break
                  ⟨Option.map sortPhotosValue (some (PhotosValue.wellTyped raw))⟩
                  (sortPhotosDesc raw) hfetch rfl he hb]
                exact Or.inr hnew
              · rw [processContainersS_snd_cont
                  ⟨Option.map sortPhotosValue (some (PhotosValue.wellTyped raw))⟩
                  (sortPhotosDesc raw) hfetch rfl he hb]
                exact ih _ _ (Or.inr hnew)
    · have hKne : ("index:" ++ name : String) ≠ "index:" ++ c.name :=
        fun e => hc (index_key_inj _ _ e.symm)
      have hstep : cacheGet ("index:" ++ name)
          ((get_container_indexS store c.name st).2).cache =
          cacheGet ("index:" ++ name) st.cache :=
        get_container_indexS_cache_ne store c.name st _ hKne
      have hstep2 : ∀ v : CacheVal τ, cacheGet ("index:" ++ name)
          (cacheSet ("index:" ++ c.name) v
            ((get_container_indexS store c.name st).2)).cache =
          cacheGet ("index:" ++ name) st.cache := by
        intro v
        show cacheGet _ (cacheSetList _ _ _) = _
        rw [cacheGet_setList_ne _ _ _ hKne]
        exact hstep
      cases hfetch1 : (get_container_indexS store c.name st).1 with
      | none =>
        rw [processContainersS_snd_none (by rw [← hfetch1])]
        exact ih total _ (h.imp (hstep.trans ·) (hstep.trans ·))
      | some d1 =>
        cases hp1 : d1.photosField with
        | none =>
          rw [processContainersS_snd_nophotos d1 (by rw [← hfetch1]) hp1]
          exact ih total _ (h.imp (hstep.trans ·) (hstep.trans ·))
        | some pv1 =>
          cases pv1 with
          | illTyped =>
            rw [processContainersS_snd_illTyped d1 (by rw [← hfetch1]) hp1]
            exact h.imp (hstep.trans ·) (hstep.trans ·)
          | wellTyped raw1 =>
            by_cases he : (cursorFilter cursorDt (sortPhotosDesc raw1)).isEmpty = true
            · rw [processContainersS_snd_skip d1 raw1 (by rw [← hfetch1]) hp1 he]
              exact ih total _ (h.imp ((hstep2 _).trans ·) ((hstep2 _).trans ·))
            · by_cases hb : limit ≤ total + (takeWithCursor (limit - total)
                  (cursorFilter cursorDt (sortPhotosDesc raw1))).1.length
              · rw [processContainersS_snd_break d1 raw1 (by rw [← hfetch1]) hp1 he hb]
                exact h.imp ((hstep2 _).trans ·) ((hstep2 _).trans ·)
              · rw [processContainersS_snd_cont d1 raw1 (by rw [← hfetch1]) hp1 he hb]
                exact ih _ _ (h.imp ((hstep2 _).trans ·) ((hstep2 _).trans ·))

/-- The photo-lookup scan never overwrites an existing cached catalog
document. -/
theorem findPhotoInDocs_cached_doc {τ : Type} [LinearOrder τ] (store : Store τ)
    (pid : String) :
    ∀ (l : List (Container τ)) (st : SState τ) (k : String) (d : IndexDoc τ),
      cacheGet k st.cache = some (CacheVal.idx d) →
      cacheGet k ((findPhotoInDocs store pid l st).2).cache =
        some (CacheVal.idx d) := by
  intro l
  induction l with
  | nil => intro st k d h; exact h
  | cons c rest ih =>
    intro st k d h
    simp only [findPhotoInDocs]
    split
    · exact ih st k d h
    · by_cases hk : k = "index:" ++ c.name
      · subst hk
        have hfetch := get_container_indexS_hit store c.name st d h
        simp only [hfetch]
        split
        · exact ih st _ d h
        · exact h
        · split
          · exact h
          · exact ih st _ d h
      · have hstep : cacheGet k ((get_container_indexS store c.name st).2).cache =
            cacheGet k st.cache :=
          get_container_indexS_cache_ne store c.name st k hk
        split
        · exact ih _ k d (hstep.trans h)
        · split
          · exact ih _ k d (hstep.trans h)
          · exact hstep.trans h
          · split
            · exact hstep.trans h
            · exact ih _ k d (hstep.trans h)

theorem partitions_ne_index_key (name : String) :
    ("partitions" : String) ≠ "index:" ++ name := by
  intro h
  have h1 := congrArg String.data h
  rw [String.data_append,
      show ("partitions" : String).data = ['p','a','r','t','i','t','i','o','n','s'] from rfl,
      show ("index:" : String).data = ['i','n','d','e','x',':'] from rfl,
      List.cons_append] at h1
  injection h1 with h2 _
  exact absurd h2 (by decide)

theorem available_years_ne_index_key (name : String) :
    ("available_years" : String) ≠ "index:" ++ name := by
  intro h
  have h1 := congrArg String.data h
  rw [String.data_append,
      show ("available_years" : String).data =
        ['a','v','a','i','l','a','b','l','e','_','y','e','a','r','s'] from rfl,
      show ("index:" : String).data = ['i','n','d','e','x',':'] from rfl,
      List.cons_append] at h1
  injection h1 with h2 _
  exact absurd h2 (by decide)

/-- C9 (counterexample): the partition enumeration of `get_photos_by_year`
is not obtained through the cache.  Starting from an empty cache, two
successive listing requests for year 2025 both enumerate the backing
store (the enumeration count reaches 2), and no value is ever stored
under the cache key `"partitions"`. -/
theorem c9_discovery_not_cached_counterexample :
    ((get_photos_by_yearS 2025 (none : RawCursor Nat) 50 demoStore
        ((get_photos_by_yearS 2025 none 50 demoStore ⟨[], 0⟩).2)).2).enumCalls = 2 ∧
    cacheGet "partitions"
      ((get_photos_by_yearS 2025 (none : RawCursor Nat) 50 demoStore
        ((get_photos_by_yearS 2025 none 50 demoStore ⟨[], 0⟩).2)).2).cache = none := by
  decide

/-- C9 (amended): every `get_photos_by_year` call performs a fresh
container enumeration against the backing store (the enumeration count
grows by exactly one per call, cached or not), and the call writes only
catalog entries (keys of the form `"index:<container>"`): every other
cache key — in particular `"partitions"` — is left untouched, so no
partition set is ever stored or read under `"partitions"`. -/
theorem c9_discovery_not_cached_amended {τ : Type} [LinearOrder τ] :
    (∀ (year : Nat) (cursor : RawCursor τ) (limit : Nat) (store : Store τ) (st : SState τ),
       ((get_photos_by_yearS year cursor limit store st).2).enumCalls = st.enumCalls + 1) ∧
    (∀ (year : Nat) (cursor : RawCursor τ) (limit : Nat) (store : Store τ) (st : SState τ)
       (k : String), (∀ name, k ≠ "index:" ++ name) →
       cacheGet k ((get_photos_by_yearS year cursor limit store st).2).cache =
         cacheGet k st.cache) ∧
    (∀ (year : Nat) (cursor : RawCursor τ) (limit : Nat) (store : Store τ) (st : SState τ),
       cacheGet "partitions" ((get_photos_by_yearS year cursor limit store st).2).cache =
         cacheGet "partitions" st.cache) := by
  have h2 : ∀ (year : Nat) (cursor : RawCursor τ) (limit : Nat) (store : Store τ)
      (st : SState τ) (k : String), (∀ name, k ≠ "index:" ++ name) →
      cacheGet k ((get_photos_by_yearS year cursor limit store st).2).cache =
        cacheGet k st.cache := by
    intro year cursor limit store st k hk
    rw [get_photos_by_yearS]
    split
    · rfl
    · exact processContainersS_cache_ne store (parsedCursor cursor) limit year k hk _ 0 _
  refine ⟨?_, h2, ?_⟩
  · intro year cursor limit store st
    rw [get_photos_by_yearS]
    split
    · rfl
    · exact processContainersS_enum store (parsedCursor cursor) limit year _ 0 _
  · intro year cursor limit store st
    exact h2 year cursor limit store st "partitions" partitions_ne_index_key

/-- Witness for C9's amended theorem at a concrete listing request. -/
theorem c9_discovery_not_cached_witness :
    ((get_photos_by_yearS 2025 (none : RawCursor Nat) 50 demoStore ⟨[], 0⟩).2).enumCalls =
      0 + 1 ∧
    cacheGet "available_years"
        ((get_photos_by_yearS 2025 (none : RawCursor Nat) 50 demoStore ⟨[], 0⟩).2).cache =
      cacheGet "available_years" (⟨[], 0⟩ : SState Nat).cache ∧
    cacheGet "partitions"
        ((get_photos_by_yearS 2025 (none : RawCursor Nat) 50 demoStore ⟨[], 0⟩).2).cache =
      cacheGet "partitions" (⟨[], 0⟩ : SState Nat).cache :=
  ⟨c9_discovery_not_cached_amended.1 2025 none 50 demoStore ⟨[], 0⟩,
   c9_discovery_not_cached_amended.2.1 2025 none 50 demoStore ⟨[], 0⟩
     "available_years" available_years_ne_index_key,
   c9_discovery_not_cached_amended.2.2 2025 none 50 demoStore ⟨[], 0⟩⟩

/-- C10 (counterexample): `get_photos_by_year` mutates a catalog held in
the shared cache.  With the catalog of `2025-q1` cached in ascending
`takenAt` order, one listing request leaves the cached photo list
reversed (sorted descending in place) — not identical to the original. -/
theorem c10_cache_mutation_counterexample :
    cacheGet "index:2025-q1"
        ((get_photos_by_yearS 2025 (none : RawCursor Nat) 50
            [⟨"2025-q1", some ⟨some (PhotosValue.wellTyped [⟨"p1", 10⟩, ⟨"p2", 20⟩])⟩⟩]
            ⟨[("index:2025-q1",
               CacheVal.idx ⟨some (PhotosValue.wellTyped [⟨"p1", 10⟩, ⟨"p2", 20⟩])⟩)],
              0⟩).2).cache =
      some (CacheVal.idx ⟨some (PhotosValue.wellTyped [⟨"p2", 20⟩, ⟨"p1", 10⟩])⟩) ∧
    (CacheVal.idx (⟨some (PhotosValue.wellTyped [⟨"p2", (20 : Nat)⟩, ⟨"p1", 10⟩])⟩ :
        IndexDoc Nat) ≠
      CacheVal.idx ⟨some (PhotosValue.wellTyped [⟨"p1", 10⟩, ⟨"p2", 20⟩])⟩) := by decide

/-- C10 (amended): `get_photos_by_year`'s only mutation of a cached
catalog document is the in-place stable sort of its photo list: after a
listing request each previously cached document is either unchanged or
equal to the same document with its photos stably sorted by `takenAt`
descending — a permutation of the original photos; `get_photo_by_id`
leaves every cached catalog document exactly unchanged. -/
theorem c10_readonly_amended {τ : Type} [LinearOrder τ] :
    (∀ (year : Nat) (cursor : RawCursor τ) (limit : Nat) (store : Store τ)
       (st : SState τ) (name : String) (d : IndexDoc τ),
       cacheGet ("index:" ++ name) st.cache = some (CacheVal.idx d) →
       (cacheGet ("index:" ++ name)
           ((get_photos_by_yearS year cursor limit store st).2).cache =
             some (CacheVal.idx d) ∨
        cacheGet ("index:" ++ name)
           ((get_photos_by_yearS year cursor limit store st).2).cache =
             some (CacheVal.idx ⟨d.photosField.map sortPhotosValue⟩))) ∧
    (∀ raw : List (Photo τ), (sortPhotosDesc raw).Perm raw) ∧
    (∀ (pid : String) (store : Store τ) (st : SState τ) (k : String) (d : IndexDoc τ),
       cacheGet k st.cache = some (CacheVal.idx d) →
       cacheGet k ((get_photo_by_idS pid store st).2).cache =
         some (CacheVal.idx d)) := by
  refine ⟨?_, fun raw => List.perm_insertionSort photoGE raw, ?_⟩
  · intro year cursor limit store st name d h
    rw [get_photos_by_yearS]
    split
    · exact Or.inl h
    · exact processContainersS_cached_doc store (parsedCursor cursor) limit year name d
        _ 0 _ (Or.inl h)
  · intro pid store st k d h
    exact findPhotoInDocs_cached_doc store pid store _ k d h

/-- Witness for C10's amended theorem: a cached `2025-q1` catalog after a
listing request, and a cached document surviving a photo lookup. -/
theorem c10_readonly_witness :
    (cacheGet ("index:" ++ "2025-q1")
        ((get_photos_by_yearS 2025 (none : RawCursor Nat) 50 demoStore
          ⟨[("index:2025-q1",
             CacheVal.idx ⟨some (PhotosValue.wellTyped [⟨"p1", 10⟩])⟩)], 0⟩).2).cache =
        some (CacheVal.idx ⟨some (PhotosValue.wellTyped [⟨"p1", 10⟩])⟩) ∨
     cacheGet ("index:" ++ "2025-q1")
        ((get_photos_by_yearS 2025 (none : RawCursor Nat) 50 demoStore
          ⟨[("index:2025-q1",
             CacheVal.idx ⟨some (PhotosValue.wellTyped [⟨"p1", 10⟩])⟩)], 0⟩).2).cache =
        some (CacheVal.idx ⟨(some (PhotosValue.wellTyped [⟨"p1", 10⟩])).map
          sortPhotosValue⟩)) ∧
    ((sortPhotosDesc [(⟨"p1", 10⟩ : Photo Nat)]).Perm [⟨"p1", 10⟩]) ∧
    cacheGet "index:2024-q4"
        ((get_photo_by_idS "demo-001" demoStore
          ⟨[("index:2024-q4",
             CacheVal.idx ⟨some (PhotosValue.wellTyped [⟨"demo-006", ts1225⟩])⟩)],
            0⟩).2).cache =
      some (CacheVal.idx ⟨some (PhotosValue.wellTyped [⟨"demo-006", ts1225⟩])⟩) :=
  ⟨c10_readonly_amended.1 2025 none 50 demoStore
     ⟨[("index:2025-q1",
        CacheVal.idx ⟨some (PhotosValue.wellTyped [⟨"p1", 10⟩])⟩)], 0⟩ "2025-q1"
     ⟨some (PhotosValue.wellTyped [⟨"p1", 10⟩])⟩ (by decide),
   c10_readonly_amended.2.1 [⟨"p1", 10⟩],
   c10_readonly_amended.2.2 "demo-001" demoStore
     ⟨[("index:2024-q4",
        CacheVal.idx ⟨some (PhotosValue.wellTyped [⟨"demo-006", ts1225⟩])⟩)], 0⟩
     "index:2024-q4" ⟨some (PhotosValue.wellTyped [⟨"demo-006", ts1225⟩])⟩ (by decide)⟩

end MemoirCloud
